import Mathlib

set_option maxHeartbeats 1000000

/-!
Shallow embedding of `coverage_exercise.py`, a five-stage pipeline over a
sambamba coverage report:

* `create_df`            — report loader (split the combined column, derive
                           the output-name portion of the path);
* `find_coverage_issues` — issue filter (keep rows with percentage30 ≠ 100);
* `get_hgncs`            — identifier resolver against the HGNC dump;
* `unique_gene_list`     — gene deduplicator;
* `create_outputs`       — output writer, modelled as the pure content it
                           writes.

Numeric cells are modelled as `Rat`; file I/O is modelled by passing the
parsed rows in and returning the written content out.  Python regex `.`
(which matches any character except a newline) and Python's substring `in`
operator are modelled explicitly below.
-/

/-- Effect of Python `re`'s leftmost-match scanning for a lazy `(.*?)` group:
since `.` cannot cross a newline, the group that reaches a fixed position is
the run of characters after the last newline before that position.  On
newline-free input this is the identity. -/
def afterLastNewline (l : List Char) : List Char :=
  l.foldl (fun acc c => if c = '\n' then [] else acc ++ [c]) []

/-- The needle is a leading block of the haystack (character-list version of
Python `str.startswith`). -/
def listIsPre : List Char → List Char → Bool
  | [], _ => true
  | _ :: _, [] => false
  | a :: as, b :: bs => a == b && listIsPre as bs

/-- Python's `needle in hay` on strings: contiguous-substring containment. -/
def pyIn : List Char → List Char → Bool
  | n, [] => listIsPre n []
  | n, c :: t => listIsPre n (c :: t) || pyIn n t

/-- One row of the raw sambamba report before the combined column is split:
the combined GeneSymbol;Accession cell, the FullPosition cell, and the
percentage30 cell.  Other passthrough columns play no role in the claims. -/
structure RawRow where
  geneAccession : String
  fullPosition : String
  percentage30 : Rat
  deriving DecidableEq

/-- One row after `create_df` has split the combined column.  A row whose
combined cell holds no semicolon receives no accession (pandas pads the
missing second part with None). -/
structure SplitRow where
  geneSymbol : String
  accession : Option String
  fullPosition : String
  percentage30 : Rat
  deriving DecidableEq

/-- One fully split row of the coverage dataframe, as consumed by
`find_coverage_issues`. -/
structure CoverageRecord where
  geneSymbol : String
  accession : String
  fullPosition : String
  percentage30 : Rat
  deriving DecidableEq

/-- One row of `issues_df` before resolution: gene, accession,
exon_position, percent_x30. -/
structure IssueRecord where
  gene : String
  accession : String
  exon_position : String
  percent_x30 : Rat
  deriving DecidableEq

/-- One row of `issues_df` after `get_hgncs` has added the hgnc column. -/
structure ResolvedRecord where
  gene : String
  accession : String
  exon_position : String
  percent_x30 : Rat
  hgnc : String
  deriving DecidableEq

/-- One row of the HGNC dump after the columns are renamed to
hgnc, approved, previous, aliases, refseq.  Each cell is the raw string
read from the tab-separated file. -/
structure HgncEntry where
  hgnc : String
  approved : String
  previous : String
  aliases : String
  refseq : String
  deriving DecidableEq

/-- Failures of the report loader: the path regex found no match (the
`.group()` call then blows up), or the split of the combined column did not
produce two columns for the two-column assignment. -/
inductive LoadError where
  | noSuffixMatch (path : String)
  | splitShape
  deriving DecidableEq

/-- Failures of the identifier resolver: the accession has no dot (the
`.group()` call on a failed `re.search` blows up), or the matched HGNC
entry does not textually contain the gene symbol (the `assert` fires,
naming the accession and the wrongly matched HGNC id). -/
inductive ResolveError where
  | formatError (acc : String)
  | matchIntegrity (acc : String) (hgncId : String)
  deriving DecidableEq

/-- Template of the regex `.sambamba_output.txt` anchored at the end of the
path: `none` stands for the regex `.` wildcard (any character but a
newline), `some c` for the literal character `c`. -/
def suffTemplate : List (Option Char) :=
  [none, some 's', some 'a', some 'm', some 'b', some 'a', some 'm',
   some 'b', some 'a', some '_', some 'o', some 'u', some 't', some 'p',
   some 'u', some 't', none, some 't', some 'x', some 't']

/-- Does a character list match a wildcard template position by position? -/
def tmplMatch : List Char → List (Option Char) → Bool
  | [], [] => true
  | c :: cs, t :: ts =>
      (match t with
       | none => c != '\n'
       | some d => c == d) && tmplMatch cs ts
  | _ :: _, [] => false
  | [], _ :: _ => false

/-- `re.search('(.*?)(?=.sambamba_output.txt$)', path).group()`: the match
exists exactly when the last 20 characters of the path fit `suffTemplate`,
and the group is then everything before them (restarted after any newline,
since the lazy `.*?` cannot cross one).  `none` models `re.search`
returning None, on which `.group()` raises. -/
def outPref (path : String) : Option String :=
  if 20 ≤ path.toList.length then
    if tmplMatch (path.toList.drop (path.toList.length - 20)) suffTemplate then
      some (String.mk (afterLastNewline (path.toList.take (path.toList.length - 20))))
    else none
  else none

/-- `value.split(';', n=1)` on one cell: split at the first semicolon only;
a cell with no semicolon yields a single part, modelled as a missing second
component. -/
def semiSplit1 (s : String) : String × Option String :=
  if ';' ∈ s.toList then
    (String.mk (s.toList.takeWhile (fun c => c ≠ ';')),
     some (String.mk ((s.toList.dropWhile (fun c => c ≠ ';')).drop 1)))
  else (s, none)

/-- The split applied to one raw row. -/
def splitRow (r : RawRow) : SplitRow :=
  { geneSymbol := (semiSplit1 r.geneAccession).1
  , accession := (semiSplit1 r.geneAccession).2
  , fullPosition := r.fullPosition
  , percentage30 := r.percentage30 }

/-- `create_df`: pandas `str.split(';', n=1, expand=True)` produces two
columns exactly when at least one row holds a semicolon (rows without one
are padded with None); assigning to the two target columns fails otherwise.
The output-name portion is then extracted from the path; a failed regex
match aborts on `.group()`. -/
def create_df (path : String) (rows : List RawRow) :
    Except LoadError (String × List SplitRow) :=
  if ∃ r ∈ rows, ';' ∈ r.geneAccession.toList then
    match outPref path with
    | some p => Except.ok (p, rows.map splitRow)
    | none => Except.error (LoadError.noSuffixMatch path)
  else Except.error LoadError.splitShape

/-- `find_coverage_issues`: keep, in order, the rows whose percentage30
cell is not exactly 100, carrying over gene, accession, position and
percentage. -/
def find_coverage_issues : List CoverageRecord → List IssueRecord
  | [] => []
  | r :: rs =>
    if r.percentage30 ≠ 100 then
      { gene := r.geneSymbol, accession := r.accession,
        exon_position := r.fullPosition,
        percent_x30 := r.percentage30 } :: find_coverage_issues rs
    else find_coverage_issues rs

/-- `re.search('(.*?)(?=\.)', acc).group()`: the characters before the
first dot (after the last newline preceding it, since `.*?` cannot cross a
newline); `none` when the accession holds no dot, on which `.group()`
raises. -/
def accPref (acc : String) : Option String :=
  if '.' ∈ acc.toList then
    some (String.mk (afterLastNewline (acc.toList.takeWhile (fun c => c ≠ '.'))))
  else none

/-- `hgnc_df.index[hgnc_df['refseq'] == acc_prefix]` followed by
`hgnc_idx[0]`: the first entry, in file order, whose refseq cell equals the
extracted accession portion; `none` models the IndexError of an empty
index. -/
def lookupEntry (entries : List HgncEntry) (pref : String) : Option HgncEntry :=
  entries.find? (fun e => e.refseq == pref)

/-- The `assert` of `get_hgncs`: the gene symbol must occur as a Python
substring of the approved, previous or aliases cell of the matched entry,
else an error naming the accession and the wrongly matched HGNC id. -/
def validateEntry (r : IssueRecord) (e : HgncEntry) : Except ResolveError String :=
  if pyIn r.gene.toList e.approved.toList ||
     pyIn r.gene.toList e.previous.toList ||
     pyIn r.gene.toList e.aliases.toList then
    Except.ok e.hgnc
  else
    Except.error (ResolveError.matchIntegrity r.accession e.hgnc)

/-- Resolution of one issue row: extract the accession portion before the
first dot (hard failure when there is no dot), look up the first matching
HGNC entry (a miss yields the sentinel), and validate a found entry. -/
def resolveOne (entries : List HgncEntry) (r : IssueRecord) :
    Except ResolveError String :=
  match accPref r.accession with
  | none => Except.error (ResolveError.formatError r.accession)
  | some pref =>
    match lookupEntry entries pref with
    | none => Except.ok "-"
    | some e => validateEntry r e

/-- `get_hgncs`: resolve each row in order, aborting on the first failing
row, and return the rows extended with their hgnc column. -/
def get_hgncs (entries : List HgncEntry) :
    List IssueRecord → Except ResolveError (List ResolvedRecord)
  | [] => Except.ok []
  | r :: rs =>
    match resolveOne entries r with
    | Except.error e => Except.error e
    | Except.ok h =>
      match get_hgncs entries rs with
      | Except.error e => Except.error e
      | Except.ok rest =>
        Except.ok ({ gene := r.gene, accession := r.accession,
                     exon_position := r.exon_position,
                     percent_x30 := r.percent_x30, hgnc := h } :: rest)

/-- The tab-joined display string of one resolved row. -/
def geneKey (r : ResolvedRecord) : String :=
  r.gene ++ "\t" ++ r.accession ++ "\t" ++ r.hgnc

/-- One step of the deduplication loop: append the key unless it has
already been emitted. -/
def addUnique (acc : List String) (k : String) : List String :=
  if k ∈ acc then acc else acc ++ [k]

/-- `unique_gene_list`: walk the resolved rows in order, emitting each
tab-joined (gene, accession, hgnc) string the first time it is seen. -/
def unique_gene_list (issues : List ResolvedRecord) : List String :=
  issues.foldl (fun acc r => addUnique acc (geneKey r)) []

/-- Reference definition following the claim's words: keep the first
occurrence of every element, in order of first occurrence. -/
def dedupFirstSpec : List String → List String
  | [] => []
  | a :: l => a :: dedupFirstSpec (l.filter (fun b => b ≠ a))
termination_by l => l.length
decreasing_by
  simp only [List.length_cons]
  exact Nat.lt_succ_of_le (List.length_filter_le _ _)

/-- What `create_outputs` writes, gathered as pure data: the two file
names, the text-file content, and the spreadsheet's column list and rows
(index=False: exactly these five columns, no index column). -/
structure OutputArtifacts where
  textName : String
  textContent : String
  xlsxName : String
  xlsxCols : List String
  xlsxRows : List (String × String × String × Rat × String)
  deriving DecidableEq

/-- `create_outputs`: the three `write` calls concatenated, and
`issues_df.to_excel(xlsx_file, index=False)` on the five-column frame. -/
def create_outputs (pfx : String) (issues : List ResolvedRecord)
    (problem_genes : List String) : OutputArtifacts :=
  { textName := pfx ++ ".low_coverage_genes.txt"
  , textContent :=
      ("Sample: " ++ pfx ++ "\n\n") ++
      "Genes with <100% coverage at 30x:\n" ++
      String.intercalate "\n" problem_genes
  , xlsxName := pfx ++ ".low_coverage_gene_exons.xlsx"
  , xlsxCols := ["gene", "accession", "exon_position", "percent_x30", "hgnc"]
  , xlsxRows := issues.map
      (fun r => (r.gene, r.accession, r.exon_position, r.percent_x30, r.hgnc)) }

/-- Projection of a resolved row back onto the four pre-resolution
columns. -/
def toIssue (s : ResolvedRecord) : IssueRecord :=
  { gene := s.gene, accession := s.accession,
    exon_position := s.exon_position, percent_x30 := s.percent_x30 }

/-! ## Helper lemmas -/

/-- Folding the newline-restart step over a newline-free list appends it. -/
theorem foldl_newline_free (l : List Char) :
    ∀ acc : List Char, (∀ c ∈ l, c ≠ '\n') →
      l.foldl (fun acc c => if c = '\n' then [] else acc ++ [c]) acc = acc ++ l := by
  induction l with
  | nil => intro acc _; simp
  | cons c t ih =>
    intro acc h
    simp only [List.foldl_cons]
    rw [if_neg (h c (List.mem_cons_self c t))]
    rw [ih (acc ++ [c]) (fun x hx => h x (List.mem_cons_of_mem _ hx))]
    simp

/-- On a newline-free list, `afterLastNewline` is the identity. -/
theorem afterLastNewline_eq_self (l : List Char) (h : ∀ c ∈ l, c ≠ '\n') :
    afterLastNewline l = l := by
  unfold afterLastNewline
  rw [foldl_newline_free l [] h]
  simp

/-- `listIsPre` means the haystack starts with the needle. -/
theorem listIsPre_iff (n : List Char) :
    ∀ h : List Char, listIsPre n h = true ↔ ∃ t, h = n ++ t := by
  induction n with
  | nil => intro h; simp [listIsPre]
  | cons a as ih =>
    intro h
    cases h with
    | nil =>
      simp [listIsPre]
    | cons b bs =>
      simp only [listIsPre, Bool.and_eq_true, beq_iff_eq, ih bs]
      constructor
      · rintro ⟨rfl, t, rfl⟩
        exact ⟨t, rfl⟩
      · rintro ⟨t, ht⟩
        rw [List.cons_append] at ht
        cases ht
        exact ⟨rfl, t, rfl⟩

/-- `pyIn` is contiguous-substring containment. -/
theorem pyIn_iff (n : List Char) :
    ∀ h : List Char, pyIn n h = true ↔ ∃ u v, h = u ++ n ++ v := by
  intro h
  induction h with
  | nil =>
    simp only [pyIn, listIsPre_iff]
    constructor
    · rintro ⟨t, ht⟩
      exact ⟨[], t, ht⟩
    · rintro ⟨u, v, huv⟩
      refine ⟨v, ?_⟩
      rcases List.append_eq_nil.mp huv.symm with ⟨h1, h2⟩
      rcases List.append_eq_nil.mp h1 with ⟨h3, h4⟩
      simp [h2, h3, h4]
  | cons c t ih =>
    simp only [pyIn, Bool.or_eq_true, listIsPre_iff, ih]
    constructor
    · rintro (⟨s, hs⟩ | ⟨u, v, huv⟩)
      · exact ⟨[], s, by simpa using hs⟩
      · exact ⟨c :: u, v, by simp [huv]⟩
    · rintro ⟨u, v, huv⟩
      cases u with
      | nil => exact Or.inl ⟨v, by simpa using huv⟩
      | cons a u' =>
        rw [List.cons_append, List.cons_append] at huv
        cases huv
        exact Or.inr ⟨u', v, rfl⟩

/-- `find?` over a concatenation whose left part has no match returns the
first match of the middle element. -/
theorem find?_first_match (p : HgncEntry → Bool) (l2 : List HgncEntry)
    (e : HgncEntry) (h2 : p e = true) :
    ∀ l1 : List HgncEntry, (∀ x ∈ l1, p x = false) →
      List.find? p (l1 ++ e :: l2) = some e := by
  intro l1
  induction l1 with
  | nil =>
    intro _
    simp [List.find?_cons, h2]
  | cons a t ih =>
    intro h1
    have ha := h1 a (List.mem_cons_self a t)
    simp only [List.cons_append, List.find?_cons, ha]
    exact ih (fun x hx => h1 x (List.mem_cons_of_mem _ hx))

/-- Decomposition of a list at the first occurrence of a character: the
`takeWhile` part precedes it and does not contain it. -/
theorem takeWhile_first (c : Char) :
    ∀ l : List Char, c ∈ l →
      l = l.takeWhile (fun x => x ≠ c) ++ c :: (l.dropWhile (fun x => x ≠ c)).drop 1 ∧
      c ∉ l.takeWhile (fun x => x ≠ c) := by
  intro l
  induction l with
  | nil => intro h; cases h
  | cons a t ih =>
    intro h
    by_cases ha : a = c
    · subst ha
      constructor
      · simp [List.takeWhile_cons, List.dropWhile_cons]
      · simp [List.takeWhile_cons]
    · have ht : c ∈ t := by
        rcases List.mem_cons.mp h with h' | h'
        · exact absurd h'.symm ha
        · exact h'
      obtain ⟨he, hnot⟩ := ih ht
      constructor
      · have hd : (fun x => decide (x ≠ c)) a = true := by simp [ha]
        simp only [List.takeWhile_cons, List.dropWhile_cons, hd, if_true]
        rw [List.cons_append]
        exact congrArg (a :: ·) he
      · have hd : (fun x => decide (x ≠ c)) a = true := by simp [ha]
        simp only [List.takeWhile_cons, hd, if_true]
        intro hmem
        rcases List.mem_cons.mp hmem with h' | h'
        · exact ha h'.symm
        · exact hnot h'

/-! ## Claims about the issue filter and the resolver -/

/-- The filter's output as a filter-then-map of the input rows. -/
theorem find_coverage_issues_eq (rows : List CoverageRecord) :
    find_coverage_issues rows =
      (rows.filter (fun r => decide (r.percentage30 ≠ 100))).map
        (fun r => { gene := r.geneSymbol, accession := r.accession,
                    exon_position := r.fullPosition,
                    percent_x30 := r.percentage30 }) := by
  induction rows with
  | nil => rfl
  | cons r rs ih =>
    by_cases h : r.percentage30 = 100
    · simp only [find_coverage_issues]
      rw [if_neg (not_not_intro h)]
      rw [List.filter_cons_of_neg (by simp [h])]
      exact ih
    · simp only [find_coverage_issues]
      rw [if_pos h]
      rw [List.filter_cons_of_pos (by simp [h])]
      simp only [List.map_cons]
      rw [ih]

/-- Claim C4: for every input coverage report, the output of
`find_coverage_issues` contains exactly the rows whose percentage30 is not
exactly 100 (so no row with percentage 100 appears and every output row has
percentage ≠ 100), preserves input order (it is the image, in order, of the
filtered input), and is count-conserving: its length equals the number of
input rows with percentage ≠ 100; an empty result is valid. -/
theorem find_coverage_issues_filter (rows : List CoverageRecord) :
    (∀ x ∈ find_coverage_issues rows, x.percent_x30 ≠ 100) ∧
    find_coverage_issues rows =
      (rows.filter (fun r => decide (r.percentage30 ≠ 100))).map
        (fun r => { gene := r.geneSymbol, accession := r.accession,
                    exon_position := r.fullPosition,
                    percent_x30 := r.percentage30 }) ∧
    (find_coverage_issues rows).length =
      (rows.filter (fun r => decide (r.percentage30 ≠ 100))).length := by
  refine ⟨?_, find_coverage_issues_eq rows, ?_⟩
  · intro x hx
    rw [find_coverage_issues_eq rows] at hx
    rcases List.mem_map.mp hx with ⟨r, hr, rfl⟩
    have := List.of_mem_filter hr
    simpa using this
  · rw [find_coverage_issues_eq rows, List.length_map]

/-- Application of `find_coverage_issues_filter` at a concrete report row,
discharging its membership hypothesis. -/
theorem find_coverage_issues_filter_app :
    ({ gene := "A", accession := "N.1", exon_position := "p",
       percent_x30 := 95 } : IssueRecord).percent_x30 ≠ 100 :=
  (find_coverage_issues_filter
      [{ geneSymbol := "A", accession := "N.1", fullPosition := "p",
         percentage30 := 95 }]).1
    { gene := "A", accession := "N.1", exon_position := "p",
      percent_x30 := 95 }
    (by decide)

/-- Claim C3: for a flagged record whose extracted accession portion equals
no reference entry's refseq cell, the resolver assigns exactly the sentinel
"-" and goes on with the remaining records; the miss is not an error and
does not abort the run. -/
theorem resolveOne_sentinel (entries : List HgncEntry) (r : IssueRecord)
    (rs : List IssueRecord) (pref : String)
    (h1 : accPref r.accession = some pref)
    (h2 : ∀ x ∈ entries, x.refseq ≠ pref) :
    resolveOne entries r = Except.ok "-" ∧
    get_hgncs entries (r :: rs) =
      (get_hgncs entries rs).map (fun rest =>
        { gene := r.gene, accession := r.accession,
          exon_position := r.exon_position,
          percent_x30 := r.percent_x30, hgnc := "-" } :: rest) := by
  have hfind : lookupEntry entries pref = none := by
    unfold lookupEntry
    rw [List.find?_eq_none]
    intro x hx
    simp only [beq_iff_eq]
    exact h2 x hx
  have h3 : resolveOne entries r = Except.ok "-" := by
    simp only [resolveOne, h1, hfind]
  refine ⟨h3, ?_⟩
  simp only [get_hgncs, h3]
  cases hg : get_hgncs entries rs with
  | error e => simp [Except.map]
  | ok rest => simp [Except.map]

/-- Application of `resolveOne_sentinel` at a concrete record and reference
table with no matching refseq cell. -/
theorem resolveOne_sentinel_app :
    resolveOne [{ hgnc := "HGNC:9", approved := "ZZZ", previous := "-",
                  aliases := "-", refseq := "NM_9" }]
        { gene := "G", accession := "NM_5.1", exon_position := "p",
          percent_x30 := 10 } = Except.ok "-" ∧
    get_hgncs [{ hgnc := "HGNC:9", approved := "ZZZ", previous := "-",
                 aliases := "-", refseq := "NM_9" }]
        [{ gene := "G", accession := "NM_5.1", exon_position := "p",
           percent_x30 := 10 }] =
      (get_hgncs [{ hgnc := "HGNC:9", approved := "ZZZ", previous := "-",
                    aliases := "-", refseq := "NM_9" }] []).map (fun rest =>
        { gene := "G", accession := "NM_5.1", exon_position := "p",
          percent_x30 := 10, hgnc := "-" } :: rest) :=
  resolveOne_sentinel
    [{ hgnc := "HGNC:9", approved := "ZZZ", previous := "-",
       aliases := "-", refseq := "NM_9" }]
    { gene := "G", accession := "NM_5.1", exon_position := "p",
      percent_x30 := 10 }
    [] "NM_5" (by decide) (by decide)

/-- Claim C2: for a flagged record, the resolver selects the FIRST
reference entry in original file order whose refseq cell exactly equals the
extracted accession portion; when duplicate refseq values exist (here
anywhere in the tail `l2`), the earliest entry wins, and resolution then
depends only on that entry. -/
theorem resolveOne_first_match (l1 l2 : List HgncEntry) (e : HgncEntry)
    (r : IssueRecord) (pref : String)
    (h1 : accPref r.accession = some pref)
    (h2 : ∀ x ∈ l1, x.refseq ≠ pref)
    (h3 : e.refseq = pref) :
    lookupEntry (l1 ++ e :: l2) pref = some e ∧
    resolveOne (l1 ++ e :: l2) r = validateEntry r e := by
  have hl : lookupEntry (l1 ++ e :: l2) pref = some e := by
    unfold lookupEntry
    apply find?_first_match
    · simp only [beq_iff_eq]
      exact h3
    · intro x hx
      simp only [beq_eq_false_iff_ne, ne_eq]
      exact h2 x hx
  refine ⟨hl, ?_⟩
  simp only [resolveOne, h1, hl]

/-- Application of `resolveOne_first_match` with a duplicate refseq value
further down the table: the earlier entry HGNC:2 wins over HGNC:3. -/
theorem resolveOne_first_match_app :
    lookupEntry
      [{ hgnc := "HGNC:1", approved := "AAA", previous := "x",
         aliases := "y", refseq := "NM_9" },
       { hgnc := "HGNC:2", approved := "BBB", previous := "x",
         aliases := "y", refseq := "NM_5" },
       { hgnc := "HGNC:3", approved := "BBB", previous := "x",
         aliases := "y", refseq := "NM_5" }] "NM_5" =
      some { hgnc := "HGNC:2", approved := "BBB", previous := "x",
             aliases := "y", refseq := "NM_5" } ∧
    resolveOne
      [{ hgnc := "HGNC:1", approved := "AAA", previous := "x",
         aliases := "y", refseq := "NM_9" },
       { hgnc := "HGNC:2", approved := "BBB", previous := "x",
         aliases := "y", refseq := "NM_5" },
       { hgnc := "HGNC:3", approved := "BBB", previous := "x",
         aliases := "y", refseq := "NM_5" }]
      { gene := "BBB", accession := "NM_5.1", exon_position := "p",
        percent_x30 := 10 } =
      validateEntry
        { gene := "BBB", accession := "NM_5.1", exon_position := "p",
          percent_x30 := 10 }
        { hgnc := "HGNC:2", approved := "BBB", previous := "x",
          aliases := "y", refseq := "NM_5" } :=
  resolveOne_first_match
    [{ hgnc := "HGNC:1", approved := "AAA", previous := "x",
       aliases := "y", refseq := "NM_9" }]
    [{ hgnc := "HGNC:3", approved := "BBB", previous := "x",
       aliases := "y", refseq := "NM_5" }]
    { hgnc := "HGNC:2", approved := "BBB", previous := "x",
      aliases := "y", refseq := "NM_5" }
    { gene := "BBB", accession := "NM_5.1", exon_position := "p",
      percent_x30 := 10 }
    "NM_5" (by decide) (by decide) (by decide)

/-- Claim C1: for a flagged record whose extracted accession portion
matches a reference entry, if the record's gene symbol does not appear in
that entry's approved, previous-symbols or alias-symbols cell, resolution
fails with a match-integrity error naming the offending accession and the
wrongly matched identifier — the record is neither skipped nor given the
sentinel, and the run aborts. -/
theorem get_hgncs_match_integrity (entries : List HgncEntry)
    (r : IssueRecord) (rs : List IssueRecord) (pref : String) (e : HgncEntry)
    (h1 : accPref r.accession = some pref)
    (h2 : lookupEntry entries pref = some e)
    (h3 : pyIn r.gene.toList e.approved.toList = false)
    (h4 : pyIn r.gene.toList e.previous.toList = false)
    (h5 : pyIn r.gene.toList e.aliases.toList = false) :
    resolveOne entries r =
      Except.error (ResolveError.matchIntegrity r.accession e.hgnc) ∧
    get_hgncs entries (r :: rs) =
      Except.error (ResolveError.matchIntegrity r.accession e.hgnc) := by
  have hr : resolveOne entries r =
      Except.error (ResolveError.matchIntegrity r.accession e.hgnc) := by
    simp only [resolveOne, h1, h2, validateEntry, h3, h4, h5,
      Bool.or_false, Bool.false_eq_true, if_false]
  refine ⟨hr, ?_⟩
  simp only [get_hgncs, hr]

/-- Application of `get_hgncs_match_integrity`: TP53 reported against
BRCA1's accession NM_007294.4 trips the integrity check and the error
names both the accession and HGNC:1100. -/
theorem get_hgncs_match_integrity_app :
    resolveOne
      [{ hgnc := "HGNC:1100", approved := "BRCA1", previous := "BRCA1L",
         aliases := "FANCS", refseq := "NM_007294" }]
      { gene := "TP53", accession := "NM_007294.4",
        exon_position := "chr17:1-2", percent_x30 := 95 } =
      Except.error (ResolveError.matchIntegrity "NM_007294.4" "HGNC:1100") ∧
    get_hgncs
      [{ hgnc := "HGNC:1100", approved := "BRCA1", previous := "BRCA1L",
         aliases := "FANCS", refseq := "NM_007294" }]
      [{ gene := "TP53", accession := "NM_007294.4",
         exon_position := "chr17:1-2", percent_x30 := 95 }] =
      Except.error (ResolveError.matchIntegrity "NM_007294.4" "HGNC:1100") :=
  get_hgncs_match_integrity
    [{ hgnc := "HGNC:1100", approved := "BRCA1", previous := "BRCA1L",
       aliases := "FANCS", refseq := "NM_007294" }]
    { gene := "TP53", accession := "NM_007294.4",
      exon_position := "chr17:1-2", percent_x30 := 95 }
    [] "NM_007294"
    { hgnc := "HGNC:1100", approved := "BRCA1", previous := "BRCA1L",
      aliases := "FANCS", refseq := "NM_007294" }
    (by decide) (by decide) (by decide) (by decide) (by decide)

/-- Claim C9: for a flagged record whose extracted accession portion
matches a reference entry, validation passes as soon as the gene symbol is
a contiguous substring of the approved, previous-symbols or alias-symbols
cell — element-of-set equality is not required. -/
theorem resolveOne_substring_ok (entries : List HgncEntry) (r : IssueRecord)
    (pref : String) (e : HgncEntry)
    (h1 : accPref r.accession = some pref)
    (h2 : lookupEntry entries pref = some e)
    (h3 : (∃ u v, e.approved.toList = u ++ r.gene.toList ++ v) ∨
          (∃ u v, e.previous.toList = u ++ r.gene.toList ++ v) ∨
          (∃ u v, e.aliases.toList = u ++ r.gene.toList ++ v)) :
    resolveOne entries r = Except.ok e.hgnc := by
  have hb : (pyIn r.gene.toList e.approved.toList ||
             pyIn r.gene.toList e.previous.toList ||
             pyIn r.gene.toList e.aliases.toList) = true := by
    rcases h3 with h | h | h
    · rw [(pyIn_iff _ _).mpr h]
      simp
    · rw [(pyIn_iff _ _).mpr h]
      simp
    · rw [(pyIn_iff _ _).mpr h]
      simp
  simp only [resolveOne, h1, h2, validateEntry, hb, if_true]

/-- Application of `resolveOne_substring_ok` with a strict substring: gene
"BRC" is not equal to the alias "BRCA1" yet validation passes. -/
theorem resolveOne_substring_ok_app :
    resolveOne
      [{ hgnc := "HGNC:7", approved := "ZZZ3", previous := "QQQ",
         aliases := "BRCA1", refseq := "NM_3" }]
      { gene := "BRC", accession := "NM_3.1", exon_position := "p",
        percent_x30 := 10 } = Except.ok "HGNC:7" ∧
    ("BRC" : String) ≠ "BRCA1" :=
  ⟨resolveOne_substring_ok
      [{ hgnc := "HGNC:7", approved := "ZZZ3", previous := "QQQ",
         aliases := "BRCA1", refseq := "NM_3" }]
      { gene := "BRC", accession := "NM_3.1", exon_position := "p",
        percent_x30 := 10 }
      "NM_3"
      { hgnc := "HGNC:7", approved := "ZZZ3", previous := "QQQ",
        aliases := "BRCA1", refseq := "NM_3" }
      (by decide) (by decide)
      (Or.inr (Or.inr ⟨[], ['A', '1'], by decide⟩)),
   by decide⟩

/-- Claim C7: for a flagged record, the extracted accession portion is the
substring preceding the first "." of the accession (stated here for the
newline-free accessions a whitespace-delimited report can produce), and an
accession containing no "." makes the whole resolution fail hard with a
format error — the record does not receive the sentinel and the run
aborts. -/
theorem accPref_format (entries : List HgncEntry) (r : IssueRecord)
    (rs : List IssueRecord) :
    ('.' ∈ r.accession.toList → '\n' ∉ r.accession.toList →
      ∃ pre rest, r.accession.toList = pre ++ '.' :: rest ∧ '.' ∉ pre ∧
        accPref r.accession = some (String.mk pre)) ∧
    ('.' ∉ r.accession.toList →
      accPref r.accession = none ∧
      resolveOne entries r =
        Except.error (ResolveError.formatError r.accession) ∧
      get_hgncs entries (r :: rs) =
        Except.error (ResolveError.formatError r.accession)) := by
  constructor
  · intro hdot hnl
    obtain ⟨he, hnot⟩ := takeWhile_first '.' r.accession.toList hdot
    refine ⟨r.accession.toList.takeWhile (fun x => x ≠ '.'),
            (r.accession.toList.dropWhile (fun x => x ≠ '.')).drop 1,
            he, hnot, ?_⟩
    unfold accPref
    rw [if_pos hdot]
    congr 1
    congr 1
    apply afterLastNewline_eq_self
    intro c hc hceq
    apply hnl
    subst hceq
    rw [he]
    exact List.mem_append.mpr (Or.inl hc)
  · intro hdot
    have ha : accPref r.accession = none := by
      unfold accPref
      rw [if_neg hdot]
    have hr : resolveOne entries r =
        Except.error (ResolveError.formatError r.accession) := by
      simp only [resolveOne, ha]
    exact ⟨ha, hr, by simp only [get_hgncs, hr]⟩

/-- Application of `accPref_format` at both a dotted accession (NM_1.2) and
a dot-free one (NM9), discharging the hypotheses of both branches. -/
theorem accPref_format_app :
    (∃ pre rest,
      ({ gene := "G", accession := "NM_1.2", exon_position := "p",
         percent_x30 := 5 } : IssueRecord).accession.toList =
          pre ++ '.' :: rest ∧ '.' ∉ pre ∧
        accPref "NM_1.2" = some (String.mk pre)) ∧
    (accPref "NM9" = none ∧
     resolveOne []
       { gene := "G", accession := "NM9", exon_position := "p",
         percent_x30 := 5 } =
       Except.error (ResolveError.formatError "NM9") ∧
     get_hgncs []
       [{ gene := "G", accession := "NM9", exon_position := "p",
          percent_x30 := 5 }] =
       Except.error (ResolveError.formatError "NM9")) :=
  ⟨(accPref_format []
      { gene := "G", accession := "NM_1.2", exon_position := "p",
        percent_x30 := 5 } []).1 (by decide) (by decide),
   (accPref_format []
      { gene := "G", accession := "NM9", exon_position := "p",
        percent_x30 := 5 } []).2 (by decide)⟩

/-- Claim C10: whenever the resolver succeeds on an issue table, the result
has the same rows in the same order, with gene, accession, exon_position
and percent_x30 untouched; the only change is the added hgnc value, one per
row. -/
theorem get_hgncs_frame (entries : List HgncEntry)
    (issues : List IssueRecord) (res : List ResolvedRecord)
    (h : get_hgncs entries issues = Except.ok res) :
    res.length = issues.length ∧
    res.map toIssue = issues := by
  induction issues generalizing res with
  | nil =>
    simp only [get_hgncs, Except.ok.injEq] at h
    subst h
    exact ⟨rfl, rfl⟩
  | cons r rs ih =>
    rw [show get_hgncs entries (r :: rs) =
        (match resolveOne entries r with
         | Except.error e => Except.error e
         | Except.ok h =>
           match get_hgncs entries rs with
           | Except.error e => Except.error e
           | Except.ok rest =>
             Except.ok ({ gene := r.gene, accession := r.accession,
                          exon_position := r.exon_position,
                          percent_x30 := r.percent_x30, hgnc := h } :: rest))
      from rfl] at h
    cases hr : resolveOne entries r with
    | error e => rw [hr] at h; cases h
    | ok hid =>
      rw [hr] at h
      cases hg : get_hgncs entries rs with
      | error e => rw [hg] at h; cases h
      | ok rest =>
        rw [hg] at h
        rw [Except.ok.injEq] at h
        subst h
        obtain ⟨ihl, ihm⟩ := ih rest hg
        refine ⟨?_, ?_⟩
        · simp [ihl]
        · simp only [List.map_cons, ihm, toIssue]

/-- Application of `get_hgncs_frame` at a concrete one-row table on which
resolution succeeds with the sentinel. -/
theorem get_hgncs_frame_app :
    ([{ gene := "G", accession := "NM_1.2", exon_position := "p",
        percent_x30 := 50, hgnc := "-" }] : List ResolvedRecord).length =
      ([{ gene := "G", accession := "NM_1.2", exon_position := "p",
          percent_x30 := 50 }] : List IssueRecord).length ∧
    ([{ gene := "G", accession := "NM_1.2", exon_position := "p",
        percent_x30 := 50, hgnc := "-" }] : List ResolvedRecord).map toIssue =
      [{ gene := "G", accession := "NM_1.2", exon_position := "p",
         percent_x30 := 50 }] :=
  get_hgncs_frame []
    [{ gene := "G", accession := "NM_1.2", exon_position := "p",
       percent_x30 := 50 }]
    [{ gene := "G", accession := "NM_1.2", exon_position := "p",
       percent_x30 := 50, hgnc := "-" }]
    (by rfl)

/-- Membership in the first-occurrence deduplication is membership in the
input. -/
theorem dedupFirstSpec_mem_iff (k : String) (l : List String) :
    k ∈ dedupFirstSpec l ↔ k ∈ l := by
  induction l using dedupFirstSpec.induct with
  | case1 => simp [dedupFirstSpec]
  | case2 a t ih =>
    simp only [dedupFirstSpec]
    constructor
    · intro hk
      rcases List.mem_cons.mp hk with rfl | hk
      · exact List.mem_cons_self _ _
      · exact List.mem_cons_of_mem _ (List.mem_of_mem_filter (ih.mp hk))
    · intro hk
      rcases List.mem_cons.mp hk with rfl | hk
      · exact List.mem_cons_self _ _
      · by_cases hak : k = a
        · subst hak
          exact List.mem_cons_self _ _
        · refine List.mem_cons_of_mem _ (ih.mpr ?_)
          refine List.mem_filter.mpr ⟨hk, ?_⟩
          simp [hak]

/-- The first-occurrence deduplication has no duplicates. -/
theorem dedupFirstSpec_nodup (l : List String) : (dedupFirstSpec l).Nodup := by
  induction l using dedupFirstSpec.induct with
  | case1 => simp [dedupFirstSpec]
  | case2 a t ih =>
    simp only [dedupFirstSpec]
    refine List.nodup_cons.mpr ⟨?_, ih⟩
    intro hmem
    have h2 := (List.mem_filter.mp
      ((dedupFirstSpec_mem_iff a _).mp hmem)).2
    simp at h2

/-- The emit-if-unseen fold equals the first-occurrence deduplication of
the keys not already in the accumulator. -/
theorem foldl_addUnique (l : List String) :
    ∀ acc : List String,
      l.foldl addUnique acc =
        acc ++ dedupFirstSpec (l.filter (fun k => decide (k ∉ acc))) := by
  induction l with
  | nil =>
    intro acc
    simp [dedupFirstSpec]
  | cons k t ih =>
    intro acc
    by_cases hk : k ∈ acc
    · rw [List.foldl_cons, show addUnique acc k = acc from if_pos hk,
        ih acc, List.filter_cons_of_neg (by simp [hk])]
    · rw [List.foldl_cons, show addUnique acc k = acc ++ [k] from if_neg hk,
        ih (acc ++ [k]), List.filter_cons_of_pos (by simp [hk])]
      simp only [dedupFirstSpec]
      rw [List.append_assoc, List.singleton_append]
      congr 2
      rw [List.filter_filter]
      congr 1
      apply List.filter_congr
      intro b _
      by_cases hb1 : b ∈ acc <;> by_cases hb2 : b = k <;>
        simp [hb1, hb2]

/-- Claim C5: the deduplicator outputs the ordered list of tab-joined
(gene, accession, hgnc) display strings with all duplicates removed: it
equals the first-occurrence deduplication of the key sequence (a record
contributes a new entry only if its composite string has not already been
emitted, first occurrence first), no two entries are identical, and the
entries are exactly the keys occurring in the input. -/
theorem unique_gene_list_dedup (issues : List ResolvedRecord) :
    unique_gene_list issues = dedupFirstSpec (issues.map geneKey) ∧
    (unique_gene_list issues).Nodup ∧
    ∀ k, k ∈ unique_gene_list issues ↔ k ∈ issues.map geneKey := by
  have h0 : unique_gene_list issues = (issues.map geneKey).foldl addUnique [] := by
    unfold unique_gene_list
    rw [List.foldl_map]
  have h1 : unique_gene_list issues = dedupFirstSpec (issues.map geneKey) := by
    rw [h0, foldl_addUnique]
    simp
  refine ⟨h1, ?_, ?_⟩
  · rw [h1]
    exact dedupFirstSpec_nodup _
  · intro k
    rw [h1]
    exact dedupFirstSpec_mem_iff k _

/-- Application of `unique_gene_list_dedup` at a concrete resolved table
whose two rows share one composite key. -/
theorem unique_gene_list_dedup_app :
    "A\tB\tC" ∈ unique_gene_list
      [{ gene := "A", accession := "B", exon_position := "p",
         percent_x30 := 1, hgnc := "C" },
       { gene := "A", accession := "B", exon_position := "q",
         percent_x30 := 2, hgnc := "C" }] :=
  ((unique_gene_list_dedup
      [{ gene := "A", accession := "B", exon_position := "p",
         percent_x30 := 1, hgnc := "C" },
       { gene := "A", accession := "B", exon_position := "q",
         percent_x30 := 2, hgnc := "C" }]).2.2 "A\tB\tC").mpr
    (by decide)

/-- Claim C8: the text output is exactly the sample line, a blank line, the
section header, and the newline-joined deduplicated gene list; the
spreadsheet has exactly the columns gene, accession, exon_position,
percent_x30, hgnc (no row-index column) and one row per flagged record
carrying that record's five values. -/
theorem create_outputs_format (pfx : String) (issues : List ResolvedRecord)
    (genes : List String) :
    (create_outputs pfx issues genes).textContent =
      "Sample: " ++ pfx ++ "\n\n" ++ "Genes with <100% coverage at 30x:\n" ++
        String.intercalate "\n" genes ∧
    (create_outputs pfx issues genes).textName =
      pfx ++ ".low_coverage_genes.txt" ∧
    (create_outputs pfx issues genes).xlsxCols =
      ["gene", "accession", "exon_position", "percent_x30", "hgnc"] ∧
    (create_outputs pfx issues genes).xlsxRows =
      issues.map (fun r =>
        (r.gene, r.accession, r.exon_position, r.percent_x30, r.hgnc)) ∧
    (create_outputs pfx issues genes).xlsxRows.length = issues.length := by
  refine ⟨?_, rfl, rfl, rfl, ?_⟩
  · simp [create_outputs, String.append_assoc]
  · simp [create_outputs]

/-! ## Claims about the report loader -/

/-- The character list of a rebuilt string is the original list. -/
theorem toList_mk (l : List Char) : (String.mk l).toList = l := rfl

/-- A list matching a template has the template's length. -/
theorem tmplMatch_length : ∀ (cs : List Char) (ts : List (Option Char)),
    tmplMatch cs ts = true → cs.length = ts.length := by
  intro cs
  induction cs with
  | nil =>
    intro ts h
    cases ts with
    | nil => rfl
    | cons t ts' => simp [tmplMatch] at h
  | cons c cs' ih =>
    intro ts h
    cases ts with
    | nil => simp [tmplMatch] at h
    | cons t ts' =>
      simp only [tmplMatch, Bool.and_eq_true] at h
      simp [ih ts' h.2]

/-- On a newline-free path, the regex finds a group exactly when the path
decomposes into that group followed by a 20-character tail matching the
wildcard template. -/
theorem outPref_some_iff (path : String) (hn : '\n' ∉ path.toList)
    (p : String) :
    outPref path = some p ↔
      ∃ t, path.toList = p.toList ++ t ∧ tmplMatch t suffTemplate = true := by
  constructor
  · intro h
    unfold outPref at h
    by_cases h20 : 20 ≤ path.toList.length
    · rw [if_pos h20] at h
      by_cases hm : tmplMatch (path.toList.drop (path.toList.length - 20))
          suffTemplate = true
      · rw [if_pos hm] at h
        rw [Option.some.injEq] at h
        have htake : afterLastNewline
            (List.take (path.data.length - 20) path.data) =
            List.take (path.data.length - 20) path.data := by
          apply afterLastNewline_eq_self
          intro c hc hceq
          exact hn (hceq ▸ List.mem_of_mem_take hc)
        subst h
        refine ⟨List.drop (path.data.length - 20) path.data, ?_, ?_⟩
        · show path.data =
            afterLastNewline (List.take (path.data.length - 20) path.data) ++
              List.drop (path.data.length - 20) path.data
          rw [htake, List.take_append_drop]
        · exact hm
      · rw [if_neg hm] at h
        cases h
    · rw [if_neg h20] at h
      cases h
  · rintro ⟨t, hpt, hm⟩
    have hlen : t.length = 20 := by
      have := tmplMatch_length t suffTemplate hm
      simpa [suffTemplate] using this
    have hplen : path.toList.length = p.toList.length + 20 := by
      rw [hpt, List.length_append, hlen]
    have h20 : 20 ≤ path.toList.length := by omega
    have hsub : path.toList.length - 20 = p.toList.length := by omega
    have hdrop : path.toList.drop (path.toList.length - 20) = t := by
      rw [hsub, hpt, List.drop_left]
    have htake : path.toList.take (path.toList.length - 20) = p.toList := by
      rw [hsub, hpt, List.take_left]
    unfold outPref
    rw [if_pos h20, hdrop, if_pos hm, htake]
    rw [afterLastNewline_eq_self _ (fun c hc hceq =>
      hn (by rw [hpt]; exact List.mem_append.mpr (Or.inl (hceq ▸ hc))))]
    rfl

/-- On a newline-free path, the regex fails exactly when no decomposition
with a template-matching 20-character tail exists. -/
theorem outPref_none_iff (path : String) (hn : '\n' ∉ path.toList) :
    outPref path = none ↔
      ¬ ∃ q t, path.toList = q ++ t ∧ tmplMatch t suffTemplate = true := by
  constructor
  · rintro h ⟨q, t, hqt, hm⟩
    have : outPref path = some (String.mk q) :=
      (outPref_some_iff path hn (String.mk q)).mpr ⟨t, by rw [toList_mk]; exact hqt, hm⟩
    rw [h] at this
    cases this
  · intro h
    cases ho : outPref path with
    | none => rfl
    | some p =>
      exfalso
      obtain ⟨t, hpt, hm⟩ := (outPref_some_iff path hn p).mp ho
      exact h ⟨p.toList, t, hpt, hm⟩

/-- A combined cell containing a semicolon is split at its first semicolon:
the gene part precedes it and holds no semicolon, and the remainder (which
may itself contain semicolons) becomes the accession. -/
theorem splitRow_semi (r : RawRow) (h : ';' ∈ r.geneAccession.toList) :
    ∃ rest, r.geneAccession.toList =
        (splitRow r).geneSymbol.toList ++ ';' :: rest ∧
      ';' ∉ (splitRow r).geneSymbol.toList ∧
      (splitRow r).accession = some (String.mk rest) := by
  obtain ⟨he, hnot⟩ := takeWhile_first ';' r.geneAccession.toList h
  have h1 : semiSplit1 r.geneAccession =
      (String.mk (r.geneAccession.toList.takeWhile (fun c => c ≠ ';')),
       some (String.mk
         ((r.geneAccession.toList.dropWhile (fun c => c ≠ ';')).drop 1))) := by
    unfold semiSplit1
    rw [if_pos h]
  refine ⟨(r.geneAccession.toList.dropWhile (fun c => c ≠ ';')).drop 1,
    ?_, ?_, ?_⟩
  · simp only [splitRow, h1]
    exact he
  · simp only [splitRow, h1]
    exact hnot
  · simp only [splitRow, h1]

/-- A combined cell without a semicolon is carried over unchanged and gets
no accession. -/
theorem splitRow_nosemi (r : RawRow) (h : ';' ∉ r.geneAccession.toList) :
    (splitRow r).geneSymbol = r.geneAccession ∧
    (splitRow r).accession = none := by
  have h1 : semiSplit1 r.geneAccession = (r.geneAccession, none) := by
    unfold semiSplit1
    rw [if_neg h]
  constructor <;> simp only [splitRow, h1]

/-- Claim C6 counterexample: the row "H" cannot be split into two parts
(it holds no semicolon), yet the loader does not fail on it — it succeeds,
leaving that row with no accession.  A run of `create_df` at a concrete
input therefore falsifies "fails whenever the combined column of some row
cannot be split into exactly two parts". -/
theorem create_df_split_cex :
    (';' ∉ ("H" : String).toList) ∧
    create_df "a.sambamba_output.txt"
        [{ geneAccession := "G;N", fullPosition := "p1", percentage30 := 50 },
         { geneAccession := "H", fullPosition := "p2", percentage30 := 60 }] =
      Except.ok ("a",
        [{ geneSymbol := "G", accession := some "N", fullPosition := "p1",
           percentage30 := 50 },
         { geneSymbol := "H", accession := none, fullPosition := "p2",
           percentage30 := 60 }]) ∧
    ¬ ∃ err, create_df "a.sambamba_output.txt"
        [{ geneAccession := "G;N", fullPosition := "p1", percentage30 := 50 },
         { geneAccession := "H", fullPosition := "p2", percentage30 := 60 }] =
      Except.error err := by
  have hok : create_df "a.sambamba_output.txt"
      [{ geneAccession := "G;N", fullPosition := "p1", percentage30 := 50 },
       { geneAccession := "H", fullPosition := "p2", percentage30 := 60 }] =
      Except.ok ("a",
        [{ geneSymbol := "G", accession := some "N", fullPosition := "p1",
           percentage30 := 50 },
         { geneSymbol := "H", accession := none, fullPosition := "p2",
           percentage30 := 60 }]) := by rfl
  refine ⟨by decide, hok, ?_⟩
  rintro ⟨err, herr⟩
  rw [hok] at herr
  cases herr

/-- Claim C6 (amended): on a newline-free path, the loader fails exactly
when no row's combined cell holds a semicolon (only then does the split
produce fewer than two columns — a semicolon-free row alongside one with a
semicolon does not fail, it just gets no accession), or when the path does
not end in a 20-character tail matching the wildcard template of
`.sambamba_output.txt` (the regex dots match any character, so a path can
lack the literal suffix and still succeed); on success the derived output
name is everything before that tail, and each row's combined cell is split
at its first semicolon. -/
theorem create_df_amended (path : String) (rows : List RawRow)
    (hn : '\n' ∉ path.toList) :
    ((∃ err, create_df path rows = Except.error err) ↔
      ((∀ r ∈ rows, ';' ∉ r.geneAccession.toList) ∨
        ¬ ∃ q t, path.toList = q ++ t ∧ tmplMatch t suffTemplate = true)) ∧
    (∀ p out, create_df path rows = Except.ok (p, out) →
      (∃ t, path.toList = p.toList ++ t ∧ tmplMatch t suffTemplate = true) ∧
      out = rows.map splitRow) ∧
    (∀ r : RawRow, ';' ∈ r.geneAccession.toList →
      ∃ rest, r.geneAccession.toList =
          (splitRow r).geneSymbol.toList ++ ';' :: rest ∧
        ';' ∉ (splitRow r).geneSymbol.toList ∧
        (splitRow r).accession = some (String.mk rest)) ∧
    (∀ r : RawRow, ';' ∉ r.geneAccession.toList →
      (splitRow r).geneSymbol = r.geneAccession ∧
      (splitRow r).accession = none) := by
  refine ⟨?_, ?_, fun r h => splitRow_semi r h, fun r h => splitRow_nosemi r h⟩
  · by_cases hs : ∃ r ∈ rows, ';' ∈ r.geneAccession.toList
    · cases ho : outPref path with
      | some p =>
        have hok : create_df path rows = Except.ok (p, rows.map splitRow) := by
          unfold create_df
          rw [if_pos hs, ho]
        constructor
        · rintro ⟨err, herr⟩
          rw [hok] at herr
          cases herr
        · rintro (hall | hno)
          · obtain ⟨r, hr, hsem⟩ := hs
            exact absurd hsem (hall r hr)
          · obtain ⟨t, hpt, hm⟩ := (outPref_some_iff path hn p).mp ho
            exact absurd ⟨p.toList, t, hpt, hm⟩ hno
      | none =>
        have herr : create_df path rows =
            Except.error (LoadError.noSuffixMatch path) := by
          unfold create_df
          rw [if_pos hs, ho]
        constructor
        · intro _
          exact Or.inr ((outPref_none_iff path hn).mp ho)
        · intro _
          exact ⟨LoadError.noSuffixMatch path, herr⟩
    · have herr : create_df path rows = Except.error LoadError.splitShape := by
        unfold create_df
        rw [if_neg hs]
      constructor
      · intro _
        refine Or.inl (fun r hr hsem => hs ⟨r, hr, hsem⟩)
      · intro _
        exact ⟨LoadError.splitShape, herr⟩
  · intro p out hok
    by_cases hs : ∃ r ∈ rows, ';' ∈ r.geneAccession.toList
    · cases ho : outPref path with
      | some p' =>
        unfold create_df at hok
        rw [if_pos hs, ho] at hok
        rw [Except.ok.injEq, Prod.mk.injEq] at hok
        obtain ⟨hp, hout⟩ := hok
        subst hp
        exact ⟨(outPref_some_iff path hn p').mp ho, hout.symm⟩
      | none =>
        unfold create_df at hok
        rw [if_pos hs, ho] at hok
        cases hok
    · unfold create_df at hok
      rw [if_neg hs] at hok
      cases hok

/-- Application of `create_df_amended` at concrete inputs: the successful
run on a conforming path, the split of a semicolon row, and the padding of
a semicolon-free row. -/
theorem create_df_amended_app :
    ((∃ t, ("a.sambamba_output.txt" : String).toList =
        ("a" : String).toList ++ t ∧ tmplMatch t suffTemplate = true) ∧
      ([{ geneSymbol := "G", accession := some "N", fullPosition := "p1", percentage30 := 50 }] : List SplitRow) =
        ([{ geneAccession := "G;N", fullPosition := "p1", percentage30 := 50 }] : List RawRow).map splitRow) ∧
    (∃ rest, ("G;N" : String).toList =
        (splitRow { geneAccession := "G;N", fullPosition := "p1", percentage30 := 50 }).geneSymbol.toList ++ ';' :: rest ∧
      ';' ∉ (splitRow { geneAccession := "G;N", fullPosition := "p1", percentage30 := 50 }).geneSymbol.toList ∧
      (splitRow { geneAccession := "G;N", fullPosition := "p1", percentage30 := 50 }).accession = some (String.mk rest)) ∧
    ((splitRow { geneAccession := "H", fullPosition := "p2", percentage30 := 60 }).geneSymbol = "H" ∧
      (splitRow { geneAccession := "H", fullPosition := "p2", percentage30 := 60 }).accession = none) :=
  ⟨(create_df_amended "a.sambamba_output.txt"
      [{ geneAccession := "G;N", fullPosition := "p1", percentage30 := 50 }]
      (by decide)).2.1 "a"
      [{ geneSymbol := "G", accession := some "N", fullPosition := "p1", percentage30 := 50 }] (by rfl),
   (create_df_amended "a.sambamba_output.txt"
      [{ geneAccession := "G;N", fullPosition := "p1", percentage30 := 50 }]
      (by decide)).2.2.1
      { geneAccession := "G;N", fullPosition := "p1", percentage30 := 50 }
      (by decide),
   (create_df_amended "a.sambamba_output.txt"
      [{ geneAccession := "G;N", fullPosition := "p1", percentage30 := 50 }]
      (by decide)).2.2.2
      { geneAccession := "H", fullPosition := "p2", percentage30 := 60 }
      (by decide)⟩
